import Mathlib

/-!
Verification of the error-normalization and sanitization pipeline
(`SanitizationConfig`, `ErrorProcessor`, `ErrorHandler`).

JavaScript strings are modelled as `List Char` (the repository's inputs are
ASCII, where JS UTF-16 code-unit indexing and code-point indexing agree).
Stateful pieces (the dedup cache) are modelled by explicit state passing, and
JavaScript exceptions by an explicit thrown-value channel.
-/

set_option maxHeartbeats 1000000
set_option maxRecDepth 10000

namespace ErrCore

/-- JavaScript string, modelled as a list of characters. -/
abbrev JStr := List Char

/-- Convert a Lean string literal to the `JStr` model. -/
def js (s : String) : JStr := s.toList

/-- The single-quote character (code 39). -/
def sq : Char := Char.ofNat 39

/-- The double-quote character (code 34). -/
def dq : Char := Char.ofNat 34

/-- The backslash character (code 92). -/
def bsl : Char := Char.ofNat 92

/-- The ESC character (code 27), the byte that begins ANSI escape sequences. -/
def escChar : Char := Char.ofNat 27

/-- JavaScript `String.prototype.includes`: substring containment. -/
def jsIncludes : JStr → JStr → Bool
  | [], pat => pat.isEmpty
  | c :: rest, pat => pat.isPrefixOf (c :: rest) || jsIncludes rest pat

/-- JavaScript `String.prototype.indexOf` for a substring needle: index of the
first occurrence (callers guard with `jsIncludes` first, as the source does). -/
def jsIndexOfSub : JStr → JStr → Nat
  | [], _ => 0
  | c :: rest, pat => if pat.isPrefixOf (c :: rest) then 0 else 1 + jsIndexOfSub rest pat

/-- JavaScript `toLowerCase`, on the ASCII fragment. -/
def jsToLower (s : JStr) : JStr := s.map Char.toLower

/-- Characters treated as whitespace by JavaScript `trim`. -/
def isJsWs (c : Char) : Bool :=
  c = ' ' ∨ c = Char.ofNat 9 ∨ c = Char.ofNat 10 ∨ c = Char.ofNat 11 ∨
  c = Char.ofNat 12 ∨ c = Char.ofNat 13 ∨ c = Char.ofNat 160 ∨
  c = Char.ofNat 65279 ∨ c = Char.ofNat 8232 ∨ c = Char.ofNat 8233

/-- JavaScript `String.prototype.trim`. -/
def jsTrim (s : JStr) : JStr :=
  ((s.dropWhile isJsWs).reverse.dropWhile isJsWs).reverse

/-- Model of `SanitizationConfig.sanitizeString`: drop quote, backslash and
angle-bracket characters, then trim whitespace (source `AppError.ts`). -/
def sanitizeString (value : JStr) : JStr :=
  if value = [] then []
  else jsTrim (value.filter (fun c => ¬ (c = dq ∨ c = sq ∨ c = bsl ∨ c = '<' ∨ c = '>')))

/-- Number of characters consumed by the maximal run of regex groups
`(?:;\d+)*` (used by the first alternative of the ANSI-stripping regex).
The first argument is a skip counter standing for an already-consumed prefix,
which keeps the recursion structural on the string. -/
def semiGo : Nat → JStr → Nat
  | _ + 1, [] => 0
  | k + 1, _ :: rest => semiGo k rest
  | 0, [] => 0
  | 0, c :: s =>
    if c = ';' then
      let d := s.takeWhile Char.isDigit
      if d = [] then 0
      else 1 + d.length + semiGo d.length s
    else 0

/-- Characters consumed by the maximal `(?:;\d+)*` run at the front of `s`. -/
def semiCount (s : JStr) : Nat := semiGo 0 s

/-- Match the first regex alternative `\[\d+(?:;\d+)*m` right after an ESC
character; on success return the number of characters consumed. -/
def ansiAlt1 (s : JStr) : Option Nat :=
  match s with
  | '[' :: s1 =>
    let d := s1.takeWhile Char.isDigit
    if d = [] then none
    else
      let g := semiCount (s1.drop d.length)
      match (s1.drop (d.length + g)).head? with
      | some c => if c = 'm' then some (1 + d.length + g + 1) else none
      | none => none
  | _ => none

/-- Match the second regex alternative `\??[0-9;]*[A-Za-z]` right after an ESC
character; on success return the number of characters consumed. -/
def ansiAlt2 (s : JStr) : Option Nat :=
  let q : Nat := match s with
    | '?' :: _ => 1
    | _ => 0
  let body := (s.drop q).takeWhile (fun c => c.isDigit ∨ c = ';')
  match (s.drop (q + body.length)).head? with
  | some c => if c.isAlpha then some (q + body.length + 1) else none
  | none => none

/-- Ordered alternation of the two ANSI-sequence alternatives (the first is
preferred, as in the source regex). -/
def ansiMatch (s : JStr) : Option Nat :=
  (ansiAlt1 s).orElse (fun _ => ansiAlt2 s)

/-- Global replacement of the ANSI-escape regex by the empty string: scan the
string, and at each ESC character drop a matched escape sequence. The first
argument is a skip counter standing for the not-yet-dropped tail of a matched
sequence, which keeps the recursion structural on the string. -/
def stripAnsiGo : Nat → JStr → JStr
  | _, [] => []
  | k + 1, _ :: rest => stripAnsiGo k rest
  | 0, c :: rest =>
    if c = escChar then
      match ansiMatch rest with
      | some n => stripAnsiGo n rest
      | none => c :: stripAnsiGo 0 rest
    else c :: stripAnsiGo 0 rest

/-- Strip ANSI escape sequences, as the regex replace in `cleanMessage`. -/
def stripAnsi (s : JStr) : JStr := stripAnsiGo 0 s

/-- Global replacement of `/^'Error: |^'|'$/`: an anchored prefix alternative
at position 0, then a trailing single quote. -/
def stripQuoteErrorPrefix (s : JStr) : JStr :=
  let t :=
    if (sq :: js "Error: ").isPrefixOf s then s.drop 8
    else if [sq].isPrefixOf s then s.drop 1
    else s
  if t.getLast? = some sq then t.dropLast else t

/-- Model of `ErrorProcessor.cleanMessage`: basic string sanitization, ANSI
stripping, quote-prefix stripping, then keep only the first line. -/
def cleanMessage (message : JStr) : JStr :=
  if message = [] then []
  else
    let c1 := sanitizeString message
    let c2 := stripAnsi c1
    let c3 := stripQuoteErrorPrefix c2
    c3.takeWhile (fun c => c ≠ Char.ofNat 10)

example : cleanMessage (js "hello world") = js "hello world" := by decide

example : cleanMessage (escChar :: js "[31m" ++ js "red" ++ escChar :: js "[0m") = js "red" := by
  decide

example : cleanMessage [escChar] = [escChar] := by decide

example : cleanMessage (sq :: js "Error: boom" ++ [sq]) = js "Error: boom" := by decide

mutual
/-- JavaScript runtime value (the data `sanitizeData` operates on). `vNull`
stands for both `null` and `undefined`. -/
inductive Value where
  | vNull : Value
  | vBool : Bool → Value
  | vNum : Int → Value
  | vStr : JStr → Value
  | vArr : ValueList → Value
  | vObj : FieldList → Value
  deriving DecidableEq

/-- Elements of a JavaScript array. -/
inductive ValueList where
  | nil : ValueList
  | cons : Value → ValueList → ValueList
  deriving DecidableEq

/-- Key-value fields of a JavaScript object, in insertion order. -/
inductive FieldList where
  | nil : FieldList
  | cons : JStr → Value → FieldList → FieldList
  deriving DecidableEq
end

/-- Model of the `SanitizationParams` interface (`sanitizationParams.ts`). -/
structure SanitizationParams where
  sensitiveKeys : List JStr
  maskValue : JStr
  skipProperties : Option (List JStr) := none
  truncateUrls : Option Bool := none
  maxStringLength : Option Nat := none
  deriving DecidableEq

/-- JavaScript truthiness of an optional number (`0` and `undefined` are falsy). -/
def natTruthy : Option Nat → Bool
  | some n => n ≠ 0
  | none => false

/-- JavaScript truthiness of an optional boolean. -/
def boolTruthy : Option Bool → Bool
  | some b => b
  | none => false

/-- The guard `config.skipProperties && config.skipProperties.length > 0`. -/
def skipActive (cfg : SanitizationParams) : Bool :=
  match cfg.skipProperties with
  | some props => props.length > 0
  | none => false

/-- Model of `SanitizationConfig.truncateString`. -/
def truncateString (value : JStr) (maxLength : Nat) : JStr :=
  if value.length > maxLength then value.take maxLength ++ js "..." else value

/-- Model of `SanitizationConfig.sanitizeUrl`: truncate from the first
occurrence of `"http"` onward. -/
def sanitizeUrl (value : JStr) : JStr :=
  if jsIncludes value (js "http") then
    value.take (jsIndexOfSub value (js "http")) ++ js "..."
  else value

/-- The sensitive-key test of `sanitizeData`: lowercased equality against the
configured set, or lowercased substring containment. -/
def isSensitiveKey (cfg : SanitizationParams) (key : JStr) : Bool :=
  (cfg.sensitiveKeys.map jsToLower).contains (jsToLower key) ||
    cfg.sensitiveKeys.any (fun sk => jsIncludes (jsToLower key) (jsToLower sk))

/-- The skip-property test of `sanitizeData`: lowercased substring match
against any configured skip property. -/
def isSkippedKey (cfg : SanitizationParams) (key : JStr) : Bool :=
  match cfg.skipProperties with
  | some props => props.any (fun p => jsIncludes (jsToLower key) (jsToLower p))
  | none => false

/-- First conditional of the string-value processing in `sanitizeData`:
`if (config.truncateUrls && processedValue.includes("http"))` rewrite URLs. -/
def urlStep (cfg : SanitizationParams) (s : JStr) : JStr :=
  if boolTruthy cfg.truncateUrls && jsIncludes s (js "http") then sanitizeUrl s else s

/-- Second conditional of the string-value processing in `sanitizeData`:
`if (config.maxStringLength)` truncate to the maximum length. -/
def lenStep (cfg : SanitizationParams) (s : JStr) : JStr :=
  if natTruthy cfg.maxStringLength then truncateString s (cfg.maxStringLength.getD 0) else s

/-- String-value processing inside the object branch of `sanitizeData`:
URL truncation when enabled, then max-length truncation. -/
def processStringValue (cfg : SanitizationParams) (s : JStr) : JStr :=
  lenStep cfg (urlStep cfg s)

mutual
/-- Model of `SanitizationConfig.sanitizeData`. The source first deletes
skipped keys from the copied object and then transforms the remaining keys in
a `forEach`; the single walk in `sanitizeFields` computes the same field list. -/
def sanitizeData (cfg : SanitizationParams) : Value → Value
  | .vNull => .vNull
  | .vBool b => .vBool b
  | .vNum n => .vNum n
  | .vStr s => .vStr (lenStep cfg s)
  | .vArr xs => .vArr (sanitizeArray cfg xs)
  | .vObj fs => .vObj (sanitizeFields cfg fs)

/-- Array branch of `sanitizeData`: element-wise via `sanitizeItem`. -/
def sanitizeArray (cfg : SanitizationParams) : ValueList → ValueList
  | .nil => .nil
  | .cons x tl => .cons (sanitizeItem cfg x) (sanitizeArray cfg tl)

/-- One array element: `typeof item === "object" && item !== null` recurses,
anything else passes through (in JavaScript arrays are also objects). -/
def sanitizeItem (cfg : SanitizationParams) : Value → Value
  | .vObj fs => .vObj (sanitizeFields cfg fs)
  | .vArr xs => .vArr (sanitizeArray cfg xs)
  | other => other

/-- Object branch of `sanitizeData`: drop skipped keys, then transform each
remaining field value with `sanitizeFieldValue`. -/
def sanitizeFields (cfg : SanitizationParams) : FieldList → FieldList
  | .nil => .nil
  | .cons k v tl =>
    if skipActive cfg ∧ isSkippedKey cfg k then sanitizeFields cfg tl
    else .cons k (sanitizeFieldValue cfg k v) (sanitizeFields cfg tl)

/-- One object field value: mask sensitive keys (masking wins over recursion),
process string values, recurse into non-null object values. -/
def sanitizeFieldValue (cfg : SanitizationParams) (k : JStr) (v : Value) : Value :=
  if isSensitiveKey cfg k then .vStr cfg.maskValue
  else
    match v with
    | .vStr s => .vStr (processStringValue cfg s)
    | .vObj fs => .vObj (sanitizeFields cfg fs)
    | .vArr xs => .vArr (sanitizeArray cfg xs)
    | other => other
end

/-- Model of `SanitizationConfig.defaultSanitizationParams`. -/
def defaultSanitizationParams : SanitizationParams :=
  { sensitiveKeys :=
      [js "password", js "apiKey", js "secret", js "authorization", js "token",
       js "accessToken", js "refreshToken", js "cookie"],
    maskValue := js "********" }

example :
    sanitizeData defaultSanitizationParams
      (.vObj (.cons (js "token") (.vStr (js "abc123"))
        (.cons (js "nested") (.vObj (.cons (js "password") (.vStr (js "xyz")) .nil)) .nil))) =
    .vObj (.cons (js "token") (.vStr (js "********"))
      (.cons (js "nested") (.vObj (.cons (js "password") (.vStr (js "********")) .nil)) .nil)) := by
  decide

theorem jsIncludes_infix_iff (s p : JStr) : jsIncludes s p = true ↔ p <:+: s := by
  induction s with
  | nil =>
    simp [jsIncludes, List.isEmpty_iff, List.infix_nil]
  | cons c rest ih =>
    rw [jsIncludes, Bool.or_eq_true, List.isPrefixOf_iff_prefix, ih, List.infix_cons_iff]

theorem jsIncludes_take_jsIndexOfSub (s p : JStr) (hp : p ≠ []) :
    jsIncludes (s.take (jsIndexOfSub s p)) p = false := by
  induction s with
  | nil =>
    simp [jsIndexOfSub, jsIncludes, List.isEmpty_iff, hp]
  | cons c rest ih =>
    by_cases h : p.isPrefixOf (c :: rest)
    · simp [jsIndexOfSub, h, jsIncludes, List.isEmpty_iff, hp]
    · rw [jsIndexOfSub, if_neg h, Nat.add_comm, List.take_succ_cons, jsIncludes]
      have h2 : p.isPrefixOf (c :: List.take (jsIndexOfSub rest p) rest) = false := by
        rw [Bool.eq_false_iff]
        intro hpre
        rw [List.isPrefixOf_iff_prefix] at hpre
        have hsub : (c :: List.take (jsIndexOfSub rest p) rest) <+: c :: rest := by
          rw [List.cons_prefix_cons]
          exact ⟨rfl, List.take_prefix _ _⟩
        have : p.isPrefixOf (c :: rest) = true :=
          List.isPrefixOf_iff_prefix.mpr (hpre.trans hsub)
        simp [this] at h
      rw [h2, ih, Bool.or_self]

theorem infix_append_cases {p a b : JStr} (h : p <:+: a ++ b) :
    p <:+: a ∨ ∃ c, c ∈ p ∧ c ∈ b := by
  rcases h with ⟨u, t, hl⟩
  by_cases hc1 : u.length + p.length ≤ a.length
  · left
    have hpre : u ++ p <+: a ++ b := ⟨t, hl⟩
    have hlen : (u ++ p).length ≤ a.length := by simpa using hc1
    have hpre2 : u ++ p <+: a := (List.isPrefix_append_of_length hlen).mp hpre
    rcases hpre2 with ⟨w, hw⟩
    exact ⟨u, w, hw⟩
  · by_cases hp : p = []
    · exact Or.inl (hp ▸ List.nil_infix)
    · right
      have h' : u ++ (p ++ t) = a ++ b := by simpa [List.append_assoc] using hl
      by_cases hu : a.length ≤ u.length
      · -- the occurrence lies entirely inside b
        have hbeq : b = List.drop a.length u ++ (p ++ t) := by
          rw [← List.drop_left a b, ← h', List.drop_append_eq_append_drop,
            show a.length - u.length = 0 from by omega, List.drop_zero]
        rcases List.exists_mem_of_ne_nil p hp with ⟨c, hcp⟩
        refine ⟨c, hcp, ?_⟩
        rw [hbeq]
        simp only [List.mem_append]
        exact Or.inr (Or.inl hcp)
      · -- the occurrence straddles the boundary: its tail beyond a lies in b
        push_neg at hc1 hu
        have hk : a.length - u.length < p.length := by omega
        have hbeq : b = List.drop (a.length - u.length) p ++ t := by
          rw [← List.drop_left a b, ← h', List.drop_append_eq_append_drop,
            List.drop_eq_nil_of_le (by omega : u.length ≤ a.length), List.nil_append,
            List.drop_append_eq_append_drop,
            show a.length - u.length - p.length = 0 from by omega, List.drop_zero]
        have hne : List.drop (a.length - u.length) p ≠ [] := by
          intro hnil
          have := List.length_drop (a.length - u.length) p
          rw [hnil] at this
          simp at this
          omega
        rcases List.exists_mem_of_ne_nil _ hne with ⟨c, hcd⟩
        exact ⟨c, List.drop_subset _ p hcd, by rw [hbeq]; exact List.mem_append_left _ hcd⟩

theorem no_char_shared_http_dots : ∀ c : Char, c ∈ js "http" → c ∈ js "..." → False := by
  decide

theorem jsIncludes_append_dots {a : JStr} (h : jsIncludes a (js "http") = false) :
    jsIncludes (a ++ js "...") (js "http") = false := by
  rw [Bool.eq_false_iff]
  intro htrue
  rcases infix_append_cases ((jsIncludes_infix_iff _ _).mp htrue) with hin | ⟨c, hc1, hc2⟩
  · rw [(jsIncludes_infix_iff _ _).mpr hin] at h; exact absurd h (by simp)
  · exact no_char_shared_http_dots c hc1 hc2

theorem jsIncludes_take {s p : JStr} (h : jsIncludes s p = false) (n : Nat) :
    jsIncludes (s.take n) p = false := by
  rw [Bool.eq_false_iff]
  intro htrue
  have hin : p <:+: s :=
    ((jsIncludes_infix_iff _ _).mp htrue).trans (List.take_prefix n s).isInfix
  rw [(jsIncludes_infix_iff _ _).mpr hin] at h
  exact absurd h (by simp)

theorem sanitizeUrl_no_http (s : JStr) : jsIncludes (sanitizeUrl s) (js "http") = false := by
  unfold sanitizeUrl
  by_cases h : jsIncludes s (js "http") = true
  · rw [if_pos h]
    apply jsIncludes_append_dots
    exact jsIncludes_take_jsIndexOfSub s (js "http") (by decide)
  · rw [if_neg h]
    exact Bool.eq_false_iff.mpr h

theorem truncateString_no_http {s : JStr} (h : jsIncludes s (js "http") = false) (n : Nat) :
    jsIncludes (truncateString s n) (js "http") = false := by
  unfold truncateString
  by_cases hl : s.length > n
  · rw [if_pos hl]
    exact jsIncludes_append_dots (jsIncludes_take h n)
  · rw [if_neg hl]; exact h

theorem truncateString_idem (s : JStr) (n : Nat) :
    truncateString (truncateString s n) n = truncateString s n := by
  unfold truncateString
  by_cases h : s.length > n
  · rw [if_pos h]
    have h1 : (s.take n).length = n := by
      rw [List.length_take]; omega
    have h2 : (s.take n ++ js "...").length > n := by
      rw [List.length_append, h1]
      have : (js "...").length = 3 := by decide
      omega
    rw [if_pos h2]
    congr 1
    rw [List.take_append_eq_append_take, h1, Nat.sub_self, List.take_zero,
      List.append_nil, List.take_of_length_le (le_of_eq h1)]
  · rw [if_neg h, if_neg h]

theorem urlStep_no_http {cfg : SanitizationParams} (s : JStr)
    (hurl : boolTruthy cfg.truncateUrls = true) :
    jsIncludes (urlStep cfg s) (js "http") = false := by
  unfold urlStep
  by_cases hinc : jsIncludes s (js "http") = true
  · rw [hurl, hinc]
    simp only [Bool.and_self, if_pos]
    exact sanitizeUrl_no_http s
  · have hinc' : jsIncludes s (js "http") = false := Bool.eq_false_iff.mpr hinc
    rw [hinc']
    simp only [Bool.and_false, Bool.false_eq_true, if_false]
    exact hinc'

theorem urlStep_of_no_http {cfg : SanitizationParams} {s : JStr}
    (h : jsIncludes s (js "http") = false) : urlStep cfg s = s := by
  unfold urlStep
  rw [h]
  simp

theorem urlStep_of_urls_off {cfg : SanitizationParams} (s : JStr)
    (hurl : boolTruthy cfg.truncateUrls = false) : urlStep cfg s = s := by
  unfold urlStep
  rw [hurl]
  simp

theorem lenStep_no_http {cfg : SanitizationParams} {s : JStr}
    (h : jsIncludes s (js "http") = false) :
    jsIncludes (lenStep cfg s) (js "http") = false := by
  unfold lenStep
  by_cases hn : natTruthy cfg.maxStringLength = true
  · rw [if_pos hn]
    exact truncateString_no_http h _
  · rw [if_neg hn]
    exact h

theorem lenStep_idem (cfg : SanitizationParams) (s : JStr) :
    lenStep cfg (lenStep cfg s) = lenStep cfg s := by
  unfold lenStep
  by_cases hn : natTruthy cfg.maxStringLength = true
  · simp only [if_pos hn]
    exact truncateString_idem _ _
  · simp only [if_neg hn]

theorem processStringValue_no_http {cfg : SanitizationParams} (s : JStr)
    (hurl : boolTruthy cfg.truncateUrls = true) :
    jsIncludes (processStringValue cfg s) (js "http") = false :=
  lenStep_no_http (urlStep_no_http s hurl)

theorem processStringValue_idem (cfg : SanitizationParams) (s : JStr) :
    processStringValue cfg (processStringValue cfg s) = processStringValue cfg s := by
  by_cases hurl : boolTruthy cfg.truncateUrls = true
  · show lenStep cfg (urlStep cfg (processStringValue cfg s)) = processStringValue cfg s
    rw [urlStep_of_no_http (processStringValue_no_http s hurl)]
    show lenStep cfg (lenStep cfg (urlStep cfg s)) = lenStep cfg (urlStep cfg s)
    exact lenStep_idem cfg _
  · have hurl' : boolTruthy cfg.truncateUrls = false := Bool.eq_false_iff.mpr hurl
    show lenStep cfg (urlStep cfg (processStringValue cfg s)) = processStringValue cfg s
    rw [urlStep_of_urls_off _ hurl']
    show lenStep cfg (lenStep cfg (urlStep cfg s)) = lenStep cfg (urlStep cfg s)
    exact lenStep_idem cfg _

mutual
/-- Claim C1 invariant on values: every object field (at any depth, including
inside arrays) whose key is sensitive for `cfg` carries the mask value. -/
def MaskedOkV (cfg : SanitizationParams) : Value → Prop
  | .vArr xs => MaskedOkA cfg xs
  | .vObj fs => MaskedOkF cfg fs
  | _ => True

/-- Claim C1 invariant on array elements. -/
def MaskedOkA (cfg : SanitizationParams) : ValueList → Prop
  | .nil => True
  | .cons x tl => MaskedOkV cfg x ∧ MaskedOkA cfg tl

/-- Claim C1 invariant on object fields. -/
def MaskedOkF (cfg : SanitizationParams) : FieldList → Prop
  | .nil => True
  | .cons k v tl =>
    (isSensitiveKey cfg k = true → v = .vStr cfg.maskValue) ∧ MaskedOkV cfg v ∧ MaskedOkF cfg tl
end

mutual
theorem sanitizeData_maskedOk (cfg : SanitizationParams) (v : Value) :
    MaskedOkV cfg (sanitizeData cfg v) := by
  cases v with
  | vNull => trivial
  | vBool b => trivial
  | vNum n => trivial
  | vStr s => trivial
  | vArr xs => exact sanitizeArray_maskedOk cfg xs
  | vObj fs => exact sanitizeFields_maskedOk cfg fs

theorem sanitizeArray_maskedOk (cfg : SanitizationParams) (xs : ValueList) :
    MaskedOkA cfg (sanitizeArray cfg xs) := by
  cases xs with
  | nil => trivial
  | cons x tl =>
    show MaskedOkV cfg (sanitizeItem cfg x) ∧ MaskedOkA cfg (sanitizeArray cfg tl)
    exact ⟨sanitizeItem_maskedOk cfg x, sanitizeArray_maskedOk cfg tl⟩

theorem sanitizeItem_maskedOk (cfg : SanitizationParams) (x : Value) :
    MaskedOkV cfg (sanitizeItem cfg x) := by
  cases x with
  | vObj fs => exact sanitizeFields_maskedOk cfg fs
  | vArr ys => exact sanitizeArray_maskedOk cfg ys
  | vNull => trivial
  | vBool b => trivial
  | vNum n => trivial
  | vStr s => trivial

theorem sanitizeFields_maskedOk (cfg : SanitizationParams) (fs : FieldList) :
    MaskedOkF cfg (sanitizeFields cfg fs) := by
  cases fs with
  | nil => trivial
  | cons k v tl =>
    show MaskedOkF cfg
      (if skipActive cfg ∧ isSkippedKey cfg k then sanitizeFields cfg tl
       else .cons k (sanitizeFieldValue cfg k v) (sanitizeFields cfg tl))
    by_cases hskip : skipActive cfg ∧ isSkippedKey cfg k
    · rw [if_pos hskip]
      exact sanitizeFields_maskedOk cfg tl
    · rw [if_neg hskip]
      exact ⟨fun hsens => by cases v <;> simp [sanitizeFieldValue, hsens],
        sanitizeFieldValue_maskedOk cfg k v, sanitizeFields_maskedOk cfg tl⟩

theorem sanitizeFieldValue_maskedOk (cfg : SanitizationParams) (k : JStr) (v : Value) :
    MaskedOkV cfg (sanitizeFieldValue cfg k v) := by
  by_cases hsens : isSensitiveKey cfg k = true
  · have h : sanitizeFieldValue cfg k v = .vStr cfg.maskValue := by
      cases v <;> simp [sanitizeFieldValue, hsens]
    rw [h]
    trivial
  · cases v with
    | vObj fs2 =>
      show MaskedOkV cfg
        (if isSensitiveKey cfg k then .vStr cfg.maskValue else .vObj (sanitizeFields cfg fs2))
      rw [if_neg hsens]
      exact sanitizeFields_maskedOk cfg fs2
    | vArr xs2 =>
      show MaskedOkV cfg
        (if isSensitiveKey cfg k then .vStr cfg.maskValue else .vArr (sanitizeArray cfg xs2))
      rw [if_neg hsens]
      exact sanitizeArray_maskedOk cfg xs2
    | vNull =>
      show MaskedOkV cfg (if isSensitiveKey cfg k then .vStr cfg.maskValue else .vNull)
      rw [if_neg hsens]
      trivial
    | vBool b =>
      show MaskedOkV cfg (if isSensitiveKey cfg k then .vStr cfg.maskValue else .vBool b)
      rw [if_neg hsens]
      trivial
    | vNum n =>
      show MaskedOkV cfg (if isSensitiveKey cfg k then .vStr cfg.maskValue else .vNum n)
      rw [if_neg hsens]
      trivial
    | vStr s =>
      show MaskedOkV cfg
        (if isSensitiveKey cfg k then .vStr cfg.maskValue
         else .vStr (processStringValue cfg s))
      rw [if_neg hsens]
      trivial
end

mutual
theorem sanitizeData_idem (cfg : SanitizationParams) (v : Value) :
    sanitizeData cfg (sanitizeData cfg v) = sanitizeData cfg v := by
  cases v with
  | vNull => rfl
  | vBool b => rfl
  | vNum n => rfl
  | vStr s => exact congrArg Value.vStr (lenStep_idem cfg s)
  | vArr xs =>
    show Value.vArr (sanitizeArray cfg (sanitizeArray cfg xs)) = Value.vArr (sanitizeArray cfg xs)
    rw [sanitizeArray_idem cfg xs]
  | vObj fs =>
    show Value.vObj (sanitizeFields cfg (sanitizeFields cfg fs)) = Value.vObj (sanitizeFields cfg fs)
    rw [sanitizeFields_idem cfg fs]

theorem sanitizeArray_idem (cfg : SanitizationParams) (xs : ValueList) :
    sanitizeArray cfg (sanitizeArray cfg xs) = sanitizeArray cfg xs := by
  cases xs with
  | nil => rfl
  | cons x tl =>
    show ValueList.cons (sanitizeItem cfg (sanitizeItem cfg x))
        (sanitizeArray cfg (sanitizeArray cfg tl)) =
      ValueList.cons (sanitizeItem cfg x) (sanitizeArray cfg tl)
    rw [sanitizeItem_idem cfg x, sanitizeArray_idem cfg tl]

theorem sanitizeItem_idem (cfg : SanitizationParams) (x : Value) :
    sanitizeItem cfg (sanitizeItem cfg x) = sanitizeItem cfg x := by
  cases x with
  | vObj fs => exact congrArg Value.vObj (sanitizeFields_idem cfg fs)
  | vArr ys => exact congrArg Value.vArr (sanitizeArray_idem cfg ys)
  | vNull => rfl
  | vBool b => rfl
  | vNum n => rfl
  | vStr s => rfl

theorem sanitizeFields_idem (cfg : SanitizationParams) (fs : FieldList) :
    sanitizeFields cfg (sanitizeFields cfg fs) = sanitizeFields cfg fs := by
  cases fs with
  | nil => rfl
  | cons k v tl =>
    show sanitizeFields cfg
        (if skipActive cfg ∧ isSkippedKey cfg k then sanitizeFields cfg tl
         else .cons k (sanitizeFieldValue cfg k v) (sanitizeFields cfg tl)) =
      if skipActive cfg ∧ isSkippedKey cfg k then sanitizeFields cfg tl
      else .cons k (sanitizeFieldValue cfg k v) (sanitizeFields cfg tl)
    by_cases hskip : skipActive cfg ∧ isSkippedKey cfg k
    · rw [if_pos hskip]
      exact sanitizeFields_idem cfg tl
    · rw [if_neg hskip]
      show (if skipActive cfg ∧ isSkippedKey cfg k then
          sanitizeFields cfg (sanitizeFields cfg tl)
        else .cons k (sanitizeFieldValue cfg k (sanitizeFieldValue cfg k v))
          (sanitizeFields cfg (sanitizeFields cfg tl))) =
        FieldList.cons k (sanitizeFieldValue cfg k v) (sanitizeFields cfg tl)
      rw [if_neg hskip, sanitizeFieldValue_idem cfg k v, sanitizeFields_idem cfg tl]

theorem sanitizeFieldValue_idem (cfg : SanitizationParams) (k : JStr) (v : Value) :
    sanitizeFieldValue cfg k (sanitizeFieldValue cfg k v) = sanitizeFieldValue cfg k v := by
  by_cases hsens : isSensitiveKey cfg k = true
  · have h : ∀ w : Value, sanitizeFieldValue cfg k w = .vStr cfg.maskValue := by
      intro w
      cases w <;> simp [sanitizeFieldValue, hsens]
    rw [h, h]
  · cases v with
    | vStr s =>
      show sanitizeFieldValue cfg k
          (if isSensitiveKey cfg k then .vStr cfg.maskValue
           else .vStr (processStringValue cfg s)) =
        if isSensitiveKey cfg k then .vStr cfg.maskValue
        else .vStr (processStringValue cfg s)
      rw [if_neg hsens]
      show (if isSensitiveKey cfg k then .vStr cfg.maskValue
        else .vStr (processStringValue cfg (processStringValue cfg s))) =
        Value.vStr (processStringValue cfg s)
      rw [if_neg hsens]
      exact congrArg Value.vStr (processStringValue_idem cfg s)
    | vObj fs2 =>
      show sanitizeFieldValue cfg k
          (if isSensitiveKey cfg k then .vStr cfg.maskValue
           else .vObj (sanitizeFields cfg fs2)) =
        if isSensitiveKey cfg k then .vStr cfg.maskValue else .vObj (sanitizeFields cfg fs2)
      rw [if_neg hsens]
      show (if isSensitiveKey cfg k then .vStr cfg.maskValue
        else .vObj (sanitizeFields cfg (sanitizeFields cfg fs2))) =
        Value.vObj (sanitizeFields cfg fs2)
      rw [if_neg hsens]
      exact congrArg Value.vObj (sanitizeFields_idem cfg fs2)
    | vArr xs2 =>
      show sanitizeFieldValue cfg k
          (if isSensitiveKey cfg k then .vStr cfg.maskValue
           else .vArr (sanitizeArray cfg xs2)) =
        if isSensitiveKey cfg k then .vStr cfg.maskValue else .vArr (sanitizeArray cfg xs2)
      rw [if_neg hsens]
      show (if isSensitiveKey cfg k then .vStr cfg.maskValue
        else .vArr (sanitizeArray cfg (sanitizeArray cfg xs2))) =
        Value.vArr (sanitizeArray cfg xs2)
      rw [if_neg hsens]
      exact congrArg Value.vArr (sanitizeArray_idem cfg xs2)
    | vNull =>
      show sanitizeFieldValue cfg k
          (if isSensitiveKey cfg k then .vStr cfg.maskValue else .vNull) =
        if isSensitiveKey cfg k then .vStr cfg.maskValue else .vNull
      rw [if_neg hsens]
      show (if isSensitiveKey cfg k then .vStr cfg.maskValue else .vNull) = Value.vNull
      rw [if_neg hsens]
    | vBool b =>
      show sanitizeFieldValue cfg k
          (if isSensitiveKey cfg k then .vStr cfg.maskValue else .vBool b) =
        if isSensitiveKey cfg k then .vStr cfg.maskValue else .vBool b
      rw [if_neg hsens]
      show (if isSensitiveKey cfg k then .vStr cfg.maskValue else .vBool b) = Value.vBool b
      rw [if_neg hsens]
    | vNum n =>
      show sanitizeFieldValue cfg k
          (if isSensitiveKey cfg k then .vStr cfg.maskValue else .vNum n) =
        if isSensitiveKey cfg k then .vStr cfg.maskValue else .vNum n
      rw [if_neg hsens]
      show (if isSensitiveKey cfg k then .vStr cfg.maskValue else .vNum n) = Value.vNum n
      rw [if_neg hsens]
end

/-- Modelled from the spec: the closed category taxonomy of section 4.3 (the
enum source file `errorCategory.ts` is not part of the provided sources). The
source member named `IO` is rendered here as `IOData` (its string value stays
`"IO"` in `catStr`). -/
inductive ErrorCategory where
  | CONNECTION | QUERY | TRANSACTION | CONSTRAINT | DATABASE
  | PERMISSION | NOT_FOUND | CONFLICT
  | AUTHENTICATION | AUTHORIZATION
  | CONFIGURATION | NOT_IMPLEMENTED | SERVICE
  | NETWORK | TIMEOUT
  | UI | ELEMENT | NAVIGATION | SELECTOR | ASSERTION
  | VALIDATION | IOData | PARSING | SERIALIZATION
  | SETUP | TEARDOWN | TEST | FIXTURE
  | PERFORMANCE | MEMORY | RESOURCE_LIMIT
  | ENVIRONMENT | DEPENDENCY
  | FILE_NOT_FOUND | PATH_IS_DIRECTORY | NOT_A_DIRECTORY | DIRECTORY_NOT_EMPTY
  | FILE_EXISTS | ACCESS_DENIED | FILE_BUSY | FILE_TOO_LARGE | FILE_NAME_TOO_LONG
  | NO_SPACE | READ_ONLY_FILE_SYSTEM
  | HTTP_CLIENT | HTTP_SERVER | UNKNOWN
  deriving DecidableEq

/-- Modelled from the spec: the string value of each enum member (string-enum
members named after themselves), used by string interpolation in the source. -/
def catStr : ErrorCategory → JStr
  | .CONNECTION => js "CONNECTION"
  | .QUERY => js "QUERY"
  | .TRANSACTION => js "TRANSACTION"
  | .CONSTRAINT => js "CONSTRAINT"
  | .DATABASE => js "DATABASE"
  | .PERMISSION => js "PERMISSION"
  | .NOT_FOUND => js "NOT_FOUND"
  | .CONFLICT => js "CONFLICT"
  | .AUTHENTICATION => js "AUTHENTICATION"
  | .AUTHORIZATION => js "AUTHORIZATION"
  | .CONFIGURATION => js "CONFIGURATION"
  | .NOT_IMPLEMENTED => js "NOT_IMPLEMENTED"
  | .SERVICE => js "SERVICE"
  | .NETWORK => js "NETWORK"
  | .TIMEOUT => js "TIMEOUT"
  | .UI => js "UI"
  | .ELEMENT => js "ELEMENT"
  | .NAVIGATION => js "NAVIGATION"
  | .SELECTOR => js "SELECTOR"
  | .ASSERTION => js "ASSERTION"
  | .VALIDATION => js "VALIDATION"
  | .IOData => js "IO"
  | .PARSING => js "PARSING"
  | .SERIALIZATION => js "SERIALIZATION"
  | .SETUP => js "SETUP"
  | .TEARDOWN => js "TEARDOWN"
  | .TEST => js "TEST"
  | .FIXTURE => js "FIXTURE"
  | .PERFORMANCE => js "PERFORMANCE"
  | .MEMORY => js "MEMORY"
  | .RESOURCE_LIMIT => js "RESOURCE_LIMIT"
  | .ENVIRONMENT => js "ENVIRONMENT"
  | .DEPENDENCY => js "DEPENDENCY"
  | .FILE_NOT_FOUND => js "FILE_NOT_FOUND"
  | .PATH_IS_DIRECTORY => js "PATH_IS_DIRECTORY"
  | .NOT_A_DIRECTORY => js "NOT_A_DIRECTORY"
  | .DIRECTORY_NOT_EMPTY => js "DIRECTORY_NOT_EMPTY"
  | .FILE_EXISTS => js "FILE_EXISTS"
  | .ACCESS_DENIED => js "ACCESS_DENIED"
  | .FILE_BUSY => js "FILE_BUSY"
  | .FILE_TOO_LARGE => js "FILE_TOO_LARGE"
  | .FILE_NAME_TOO_LONG => js "FILE_NAME_TOO_LONG"
  | .NO_SPACE => js "NO_SPACE"
  | .READ_ONLY_FILE_SYSTEM => js "READ_ONLY_FILE_SYSTEM"
  | .HTTP_CLIENT => js "HTTP_CLIENT"
  | .HTTP_SERVER => js "HTTP_SERVER"
  | .UNKNOWN => js "UNKNOWN"

/-- Model of the `response` part of an axios error (section 6 shape). -/
structure AxiosResponse where
  status : Option Nat := none
  statusText : Option JStr := none
  rdata : Option Value := none
  deriving DecidableEq

/-- Model of the `config` part of an axios error. -/
structure AxiosConfig where
  url : Option JStr := none
  method : Option JStr := none
  headers : Option Value := none
  deriving DecidableEq

/-- Model of the Playwright `matcherResult` shape (`errorHandler.ts`). -/
structure MatcherResult where
  name : JStr
  pass : Bool
  expected : Value
  actual : Value
  message : Option JStr := none
  log : Option (List JStr) := none
  deriving DecidableEq

/-- An axios-shaped error value (an object for which `axios.isAxiosError`
holds). -/
structure AxiosShape where
  response : Option AxiosResponse := none
  config : Option AxiosConfig := none
  message : JStr := []
  deriving DecidableEq

/-- An `Error` instance: its message, optional `code` and `matcherResult`
properties, the `AppError` category when the instance is an `AppError`, and
its own enumerable properties as seen by an object spread. -/
structure NativeErr where
  message : JStr
  code : Option JStr := none
  matcherResult : Option MatcherResult := none
  appCategory : Option ErrorCategory := none
  props : FieldList := .nil
  deriving DecidableEq

/-- The `unknown` value handed to the error pipeline: an `Error` instance, an
axios-shaped plain object, a string, a plain object, or another primitive
(`otherVal` carries its `String()` rendering). -/
inductive JsError where
  | errVal (e : NativeErr)
  | axiosVal (a : AxiosShape)
  | strVal (s : JStr)
  | objVal (fs : FieldList)
  | otherVal (srepr : JStr)
  deriving DecidableEq

/-- The `axios.isAxiosError` test. -/
def isAxiosError : JsError → Bool
  | .axiosVal _ => true
  | _ => false

/-- The `error instanceof Error && "matcherResult" in error` test. -/
def hasMatcherResult : JsError → Bool
  | .errVal e => e.matcherResult.isSome
  | _ => false

/-- First field of an object with the given key (JavaScript property read). -/
def fieldLookup : FieldList → JStr → Option Value
  | .nil, _ => none
  | .cons k v tl, key => if k = key then some v else fieldLookup tl key

/-- Decimal rendering of a number, as JavaScript string interpolation. -/
def natToChars (n : Nat) : JStr := (Nat.repr n).toList

/-- Modelled from the spec: the platform `URL` constructor used by the source
as `new URL(url, "http://example.com").pathname` (the `URL` class is not part
of the repository). An absolute `http`/`https` URL yields its path component
(query and fragment stripped, `"/"` when the path is empty); an absolute
special-scheme URL with an empty host fails, as the platform constructor
does; any other input resolves against the base `http://example.com`. -/
def urlPathname (url : JStr) : Except NativeErr JStr :=
  let stripQF : JStr → JStr := fun p => p.takeWhile (fun c => c ≠ '?' ∧ c ≠ '#')
  if (js "http://").isPrefixOf url ∨ (js "https://").isPrefixOf url then
    let rest := if (js "https://").isPrefixOf url then url.drop 8 else url.drop 7
    let host := rest.takeWhile (fun c => c ≠ '/' ∧ c ≠ '?' ∧ c ≠ '#')
    if host = [] then .error { message := js "Invalid URL" }
    else
      let path := stripQF (rest.drop host.length)
      .ok (if path = [] then js "/" else path)
  else if url.head? = some '/' then .ok (stripQF url)
  else .ok (js "/" ++ stripQF url)

/-- The fixed fallback message of `getErrorMessage`. -/
def unknownErrorMessage : JStr := js "Unknown error occurred"

/-- Model of `ErrorProcessor.formatAxiosErrorMessage`. The `new URL` call can
throw, hence the `Except` channel. -/
def formatAxiosErrorMessage (a : AxiosShape) : Except NativeErr JStr := do
  let status := a.response.bind (·.status)
  let statusText := a.response.bind (·.statusText)
  let url ← match a.config.bind (·.url) with
    | some u => if u ≠ [] then urlPathname u else Except.ok (js "unknown")
    | none => Except.ok (js "unknown")
  let statusPart := match status with
    | some n => if n ≠ 0 then natToChars n else js "Error"
    | none => js "Error"
  let statusTextPart := match statusText with
    | some t => if t ≠ [] then t else a.message
    | none => a.message
  let methodPart := match a.config.bind (·.method) with
    | some m => if m ≠ [] then m else js "GET"
    | none => js "GET"
  Except.ok (js "HTTP " ++ statusPart ++ js ": " ++ statusTextPart ++ js " (" ++
    methodPart ++ js " " ++ url ++ js ")")

/-- Model of `ErrorProcessor.getErrorMessage` (branch order as in the source:
`instanceof Error` first, then `axios.isAxiosError`, then strings, then
objects exposing a string `message`). -/
def getErrorMessage : JsError → Except NativeErr JStr
  | .errVal e => .ok (cleanMessage e.message)
  | .axiosVal a => formatAxiosErrorMessage a
  | .strVal s => .ok (cleanMessage s)
  | .objVal fs =>
    match fieldLookup fs (js "message") with
    | some (.vStr m) => .ok (cleanMessage m)
    | _ => .ok unknownErrorMessage
  | .otherVal _ => .ok unknownErrorMessage

/-- Model of `ErrorProcessor.getErrorMessageAsLowerCase`: the message for
`Error` instances, the `String()` rendering otherwise. -/
def getErrorMessageAsLowerCase : JsError → JStr
  | .errVal e => jsToLower e.message
  | .axiosVal _ => jsToLower (js "[object Object]")
  | .objVal _ => jsToLower (js "[object Object]")
  | .strVal s => jsToLower s
  | .otherVal r => jsToLower r

/-- Model of `ErrorProcessor.containsAnyKeyword`. -/
def containsAnyKeyword (text : JStr) (keywords : List JStr) : Bool :=
  keywords.any (fun kw => jsIncludes text kw)

/-- Model of `ErrorProcessor.getContextFromError`. -/
def getContextFromError (e : JsError) : JStr :=
  if isAxiosError e then js "API Request Error"
  else if hasMatcherResult e then js "Playwright Test Error"
  else
    let m := getErrorMessageAsLowerCase e
    if containsAnyKeyword m [js "database", js "query", js "sql"] then js "Database Error"
    else if containsAnyKeyword m [js "permission", js "access", js "unauthorized"] then
      js "Permission Error"
    else js "General Error"

/-- Model of `ErrorProcessor.categorizeAxiosError`. -/
def categorizeAxiosError (a : AxiosShape) : ErrorCategory :=
  match a.response.bind (·.status) with
  | none => .NETWORK
  | some s =>
    if s = 0 then .NETWORK
    else if s = 401 then .AUTHENTICATION
    else if s = 403 then .AUTHORIZATION
    else if s = 404 then .NOT_FOUND
    else if 400 ≤ s ∧ s < 500 then .HTTP_CLIENT
    else if 500 ≤ s then .HTTP_SERVER
    else .UNKNOWN

/-- The OS error-code tier of `categorizeErrorByMessage` (the `switch` on
`error.code`; a code outside the table falls through to the keyword tier). -/
def fsCodeCategory (c : JStr) : Option ErrorCategory :=
  if c = js "ENOENT" then some .FILE_NOT_FOUND
  else if c = js "EISDIR" then some .PATH_IS_DIRECTORY
  else if c = js "ENOTDIR" then some .NOT_A_DIRECTORY
  else if c = js "ENOTEMPTY" then some .DIRECTORY_NOT_EMPTY
  else if c = js "EEXIST" then some .FILE_EXISTS
  else if c = js "EACCES" then some .ACCESS_DENIED
  else if c = js "EBUSY" then some .FILE_BUSY
  else if c = js "EFBIG" then some .FILE_TOO_LARGE
  else if c = js "ENAMETOOLONG" then some .FILE_NAME_TOO_LONG
  else if c = js "ENOSPC" then some .NO_SPACE
  else if c = js "EROFS" then some .READ_ONLY_FILE_SYSTEM
  else none

/-- The ordered keyword table of `categorizeErrorByMessage`, in source
(insertion) order; first matching entry wins. -/
def keywordTable : List (ErrorCategory × List JStr) :=
  [(.CONNECTION, [js "connection", js "connect"]),
   (.QUERY, [js "query", js "sql"]),
   (.TRANSACTION, [js "transaction"]),
   (.CONSTRAINT, [js "constraint", js "duplicate"]),
   (.DATABASE, [js "database", js "db"]),
   (.PERMISSION, [js "permission", js "access", js "denied"]),
   (.NOT_FOUND, [js "not found", js "missing", js "doesn" ++ [sq] ++ js "t exist"]),
   (.CONFLICT, [js "conflict"]),
   (.AUTHENTICATION, [js "authentication", js "login"]),
   (.AUTHORIZATION, [js "authorization", js "forbidden"]),
   (.CONFIGURATION, [js "configuration", js "config"]),
   (.NOT_IMPLEMENTED, [js "not_implemented", js "unimplemented"]),
   (.SERVICE, [js "service", js "unavailable"]),
   (.NETWORK, [js "network"]),
   (.TIMEOUT, [js "timeout", js "gateway", js "retry"]),
   (.UI, [js "ui", js "interface", js "view", js "render"]),
   (.ELEMENT, [js "element", js "component", js "dom"]),
   (.NAVIGATION, [js "navigation", js "route", js "redirect"]),
   (.SELECTOR, [js "selector", js "locator", js "xpath", js "css"]),
   (.ASSERTION, [js "assertion", js "expect", js "should"]),
   (.VALIDATION, [js "validation", js "invalid", js "schema"]),
   (.IOData, [js "i/o", js "input/output"]),
   (.PARSING, [js "parse", js "parsing"]),
   (.SERIALIZATION, [js "serialize", js "serialization"]),
   (.SETUP, [js "setup", js "before", js "beforeAll"]),
   (.TEARDOWN, [js "teardown", js "after", js "afterAll"]),
   (.TEST, [js "test failed", js "test error"]),
   (.FIXTURE, [js "fixture"]),
   (.PERFORMANCE, [js "performance", js "slow", js "timeout"]),
   (.MEMORY, [js "memory", js "out of memory", js "heap"]),
   (.RESOURCE_LIMIT, [js "resource limit", js "quota"]),
   (.ENVIRONMENT, [js "environment", js "env", js "variable"]),
   (.DEPENDENCY, [js "dependency", js "module", js "import"]),
   (.FILE_NOT_FOUND, [js "file not found", js "no such file", js "doesn" ++ [sq] ++ js "t exist"]),
   (.PATH_IS_DIRECTORY,
     [js "is a directory", js "cannot write to directory", js "cannot read directory as file"]),
   (.NOT_A_DIRECTORY, [js "not a directory"]),
   (.DIRECTORY_NOT_EMPTY, [js "directory not empty"]),
   (.FILE_EXISTS, [js "file already exists", js "already exists"]),
   (.ACCESS_DENIED, [js "permission denied", js "access denied"]),
   (.NO_SPACE, [js "no space", js "disk full"]),
   (.FILE_TOO_LARGE, [js "file too large"])]

/-- The keyword tier and the trailing `AppError` fallback of
`categorizeErrorByMessage`. -/
def keywordScan (msg : JStr) (e : NativeErr) : ErrorCategory :=
  match keywordTable.find? (fun p => p.2.any (fun kw => jsIncludes msg kw)) with
  | some p => p.1
  | none =>
    match e.appCategory with
    | some cat => cat
    | none => .UNKNOWN

/-- Model of `ErrorProcessor.categorizeErrorByMessage`: OS error-code tier
first, then the ordered keyword tier, then the `AppError` fallback. -/
def categorizeErrorByMessage (e : NativeErr) : ErrorCategory :=
  match e.code with
  | some c =>
    match fsCodeCategory c with
    | some cat => cat
    | none => keywordScan (jsToLower e.message) e
  | none => keywordScan (jsToLower e.message) e

/-- Model of `ErrorProcessor.categorizeError`. -/
def categorizeError : JsError → ErrorCategory
  | .axiosVal a => categorizeAxiosError a
  | .errVal e => if e.matcherResult.isSome then .TEST else categorizeErrorByMessage e
  | _ => .UNKNOWN

/-- Model of the `ErrorDetails` interface (`errorHandler.ts`); the `details`
field is never set by `createErrorDetails` and is omitted. -/
structure ErrorDetails where
  source : JStr
  context : JStr
  message : JStr
  category : ErrorCategory
  statusCode : Option Nat := none
  url : Option JStr := none
  deriving DecidableEq

/-- Model of `ErrorProcessor.addHttpDetailsIfAvailable`: for an axios error
with a truthy response status, set `statusCode` and copy `config.url`. -/
def addHttpDetailsIfAvailable (e : JsError) (d : ErrorDetails) : ErrorDetails :=
  match e with
  | .axiosVal a =>
    match a.response.bind (·.status) with
    | some s => if s ≠ 0 then { d with statusCode := some s, url := a.config.bind (·.url) } else d
    | none => d
  | _ => d

/-- Model of `ErrorProcessor.createErrorDetails` (the stack-stripping mutation
of the input error object does not affect the returned record). -/
def createErrorDetails (e : JsError) (source : JStr) (context : Option JStr) :
    Except NativeErr ErrorDetails := do
  let msg ← getErrorMessage e
  let base : ErrorDetails :=
    { source := source,
      context := match context with
        | some c => if c ≠ [] then c else getContextFromError e
        | none => getContextFromError e,
      message := msg,
      category := categorizeError e }
  Except.ok (addHttpDetailsIfAvailable e base)

/-- Model of `ErrorProcessor.createCacheKey`. -/
def createCacheKey (d : ErrorDetails) : JStr :=
  d.source ++ js "_" ++ catStr d.category ++ js "_" ++ d.message.take 50

instance {ε α : Type} [DecidableEq ε] [DecidableEq α] : DecidableEq (Except ε α) :=
  fun a b =>
    match a, b with
    | .ok x, .ok y =>
      if h : x = y then isTrue (by rw [h]) else isFalse (by intro hc; cases hc; exact h rfl)
    | .error x, .error y =>
      if h : x = y then isTrue (by rw [h]) else isFalse (by intro hc; cases hc; exact h rfl)
    | .ok _, .error _ => isFalse (by intro hc; cases hc)
    | .error _, .ok _ => isFalse (by intro hc; cases hc)

/-- The concrete axios-shaped error of end-to-end scenario B. -/
def scenarioBError : JsError :=
  .axiosVal
    { response := some { status := some 404, statusText := some (js "Not Found") },
      config := some { url := some (js "https://api.example.com/users/42"),
                       method := some (js "GET") } }

example :
    createErrorDetails scenarioBError (js "s") none =
      Except.ok
        { source := js "s",
          context := js "API Request Error",
          message := js "HTTP 404: Not Found (GET /users/42)",
          category := .NOT_FOUND,
          statusCode := some 404,
          url := some (js "https://api.example.com/users/42") } := by
  decide

/-- Modelled from the spec: the `RequestContext` collaborator (its source
file is not among the provided sources; section 6 of the spec gives its
interface: `isExpectedStatus(context, status)` and `isNegativeTest(context)`). -/
structure RequestContextModel where
  isExpectedStatus : JStr → Nat → Bool
  isNegativeTest : JStr → Bool

/-- Log severity of the external sink. -/
inductive Severity where
  | info | warnSev | errorSev
  deriving DecidableEq

/-- One line handed to the log sink: plain text, or a value that the source
passes through `JSON.stringify`. -/
inductive LogLine where
  | text (sev : Severity) (s : JStr)
  | json (sev : Severity) (v : Value)
  deriving DecidableEq

/-- State of the `ErrorHandler` class: the insertion-ordered `loggedErrors`
set of fingerprints (a JavaScript `Set` keeps insertion order). -/
structure HandlerState where
  loggedErrors : List JStr
  deriving DecidableEq

/-- The `MAX_CACHE_SIZE` constant of `ErrorHandler`. -/
def MAX_CACHE_SIZE : Nat := 1000

/-- JavaScript `Set.add`: appends at the end unless the key is present. -/
def setAdd (c : List JStr) (key : JStr) : List JStr :=
  if c.contains key then c else c ++ [key]

/-- Model of `ErrorHandler.manageCacheSize`: add the key, then if the cache
exceeds `MAX_CACHE_SIZE` delete the first-inserted entry. -/
def manageCacheSize (st : HandlerState) (cacheKey : JStr) : HandlerState :=
  let c := setAdd st.loggedErrors cacheKey
  if c.length > MAX_CACHE_SIZE then
    match c.head? with
    | some firstItem => { loggedErrors := c.erase firstItem }
    | none => { loggedErrors := c }
  else { loggedErrors := c }

/-- Model of `ErrorHandler.shouldSkipErrorLogging`. -/
def shouldSkipErrorLogging (rc : RequestContextModel) (e : JsError)
    (context : Option JStr) : Bool :=
  match context with
  | none => false
  | some ctx =>
    if ctx = [] then false
    else
      match e with
      | .axiosVal a =>
        match a.response.bind (·.status) with
        | some s => if s ≠ 0 then rc.isExpectedStatus ctx s && rc.isNegativeTest ctx else false
        | none => false
      | _ => false

/-- Convert a Lean list of values to a `ValueList`. -/
def toValueList : List Value → ValueList
  | [] => .nil
  | v :: tl => .cons v (toValueList tl)

/-- A field of an extracted-details record: JavaScript distinguishes a key
holding `undefined` (counted by `Object.keys`, dropped by `JSON.stringify`)
from an absent key. -/
inductive JField where
  | undef
  | val (v : Value)
  deriving DecidableEq

/-- Model of `ErrorProcessor.extractPlaywrightDetails`. -/
def extractPlaywrightDetails (e : NativeErr) : List (JStr × JField) :=
  match e.matcherResult with
  | none => []
  | some m =>
    [(js "name", .val (.vStr m.name)),
     (js "pass", .val (.vBool m.pass)),
     (js "expected", .val m.expected),
     (js "actual", .val m.actual),
     (js "message",
       match m.message with
       | some msg => .val (.vStr (cleanMessage msg))
       | none => .undef),
     (js "log",
       match m.log with
       | some entries =>
         .val (.vArr (toValueList
           (((entries.filter (fun en => ¬ jsIncludes en (js "http"))).map
             (fun en => Value.vStr (cleanMessage en))))))
       | none => .undef)]

/-- Model of `SanitizationConfig.sanitizeHeaders`: non-objects give an empty
record, otherwise sanitize with the default parameters. -/
def sanitizeHeaders (headers : Option Value) : Value :=
  match headers with
  | some (.vObj fs) => sanitizeData defaultSanitizationParams (.vObj fs)
  | some (.vArr xs) => sanitizeData defaultSanitizationParams (.vArr xs)
  | _ => .vObj .nil

/-- The custom parameters of `ErrorProcessor.sanitizeObject`: the defaults
plus `skipProperties = ["stack"]`, `truncateUrls`, `maxStringLength = 1000`. -/
def customSanitizationParams : SanitizationParams :=
  { defaultSanitizationParams with
    skipProperties := some [js "stack"],
    truncateUrls := some true,
    maxStringLength := some 1000 }

/-- Model of `ErrorProcessor.sanitizeObject`. -/
def sanitizeObject (v : Value) : Value :=
  if v = .vNull then .vObj .nil else sanitizeData customSanitizationParams v

/-- Model of `ErrorProcessor.extractAxiosDetails` (the `new URL` call on
`config.url` can throw). Keys in source insertion order: `status`,
`statusText`, `method`, `url`, `headers`, `data`. -/
def extractAxiosDetails (a : AxiosShape) : Except NativeErr (List (JStr × JField)) := do
  let base : List (JStr × JField) :=
    [(js "status",
      match a.response.bind (·.status) with
      | some s => .val (.vNum s)
      | none => .undef),
     (js "statusText",
      match a.response.bind (·.statusText) with
      | some t => .val (.vStr t)
      | none => .undef)]
  let withCfg ← match a.config with
    | some cfg => do
      let urlField ← match cfg.url with
        | some u =>
          if u ≠ [] then do
            let p ← urlPathname u
            Except.ok (JField.val (.vStr p))
          else Except.ok JField.undef
        | none => Except.ok JField.undef
      Except.ok (base ++
        [(js "method",
          match cfg.method with
          | some m => JField.val (.vStr m)
          | none => JField.undef),
         (js "url", urlField),
         (js "headers", JField.val (sanitizeHeaders cfg.headers))])
    | none => Except.ok base
  match a.response.bind (·.rdata) with
  | some (.vObj fs) => Except.ok (withCfg ++ [(js "data", .val (sanitizeObject (.vObj fs)))])
  | some (.vArr xs) => Except.ok (withCfg ++ [(js "data", .val (sanitizeObject (.vArr xs)))])
  | _ => Except.ok withCfg

/-- Fields of an object value (an already-sanitized record). -/
def fieldsOfValue : Value → FieldList
  | .vObj fs => fs
  | _ => .nil

/-- View a sanitized object as an extracted-details record (all keys defined). -/
def toExtraRecord : FieldList → List (JStr × JField)
  | .nil => []
  | .cons k v tl => (k, .val v) :: toExtraRecord tl

/-- Model of `ErrorProcessor.extractExtraDetails`: matcher errors, then axios
errors, then generic objects (an `Error` instance is itself an object whose
own enumerable properties are sanitized), else an empty record. -/
def extractExtraDetails (e : JsError) : Except NativeErr (List (JStr × JField)) :=
  match e with
  | .errVal err =>
    if err.matcherResult.isSome then Except.ok (extractPlaywrightDetails err)
    else Except.ok (toExtraRecord (fieldsOfValue (sanitizeObject (.vObj err.props))))
  | .axiosVal a => extractAxiosDetails a
  | .objVal fs => Except.ok (toExtraRecord (fieldsOfValue (sanitizeObject (.vObj fs))))
  | .strVal _ => Except.ok []
  | .otherVal _ => Except.ok []

/-- First field of an extracted record with the given key. -/
def extraLookup : List (JStr × JField) → JStr → Option JField
  | [], _ => none
  | (k, f) :: tl, key => if k = key then some f else extraLookup tl key

/-- JavaScript truthiness of a value. -/
def jsTruthyValue : Value → Bool
  | .vNull => false
  | .vBool b => b
  | .vNum n => n ≠ 0
  | .vStr s => s ≠ []
  | _ => true

/-- The `extraDetails?.statusText || "Unknown"` expression of `captureError`. -/
def typeFieldValue (r : List (JStr × JField)) : Value :=
  match extraLookup r (js "statusText") with
  | some (.val v) => if jsTruthyValue v then v else .vStr (js "Unknown")
  | _ => .vStr (js "Unknown")

/-- Drop keys holding `undefined`, as `JSON.stringify` does. -/
def extraFields : List (JStr × JField) → FieldList
  | [] => .nil
  | (_, .undef) :: tl => extraFields tl
  | (k, .val v) :: tl => .cons k v (extraFields tl)

/-- The record of an extracted-details list, as stringified. -/
def extraToValue (r : List (JStr × JField)) : Value := .vObj (extraFields r)

/-- The `ErrorDetails` record viewed as the object that `captureError`
sanitizes and stringifies (keys in creation order; keys holding `undefined`
are dropped as `JSON.stringify` does). -/
def detailsToValue (d : ErrorDetails) : Value :=
  .vObj (.cons (js "source") (.vStr d.source)
    (.cons (js "context") (.vStr d.context)
      (.cons (js "message") (.vStr d.message)
        (.cons (js "category") (.vStr (catStr d.category))
          (match d.statusCode, d.url with
           | some s, some u =>
             .cons (js "statusCode") (.vNum s) (.cons (js "url") (.vStr u) .nil)
           | some s, none => .cons (js "statusCode") (.vNum s) .nil
           | none, some u => .cons (js "url") (.vStr u) .nil
           | none, none => .nil)))))

/-- The informational line logged for an expected negative-test error. -/
def expectedInfoLine (ctx : JStr) (s : Nat) : LogLine :=
  .text .info (js "Expected error in negative test [" ++ ctx ++ js "]: Status " ++ natToChars s)

/-- The error-severity lines emitted for a fresh record: the sanitized
stringified record, then the extra-details line when the record is nonempty. -/
def emittedLogs (source : JStr) (details : ErrorDetails)
    (extra : List (JStr × JField)) : List LogLine :=
  let line1 : LogLine := .json .errorSev (sanitizeObject (detailsToValue details))
  if extra.length > 0 then
    [line1,
     .json .errorSev (.vObj (.cons (js "source") (.vStr source)
       (.cons (js "type") (typeFieldValue extra)
         (.cons (js "details") (extraToValue extra) .nil))))]
  else [line1]

/-- The `try` block of `ErrorHandler.captureError`: resulting state, emitted
log lines, and the thrown value when a step throws (partial effects kept). -/
def captureErrorBody (rc : RequestContextModel) (st : HandlerState) (e : JsError)
    (source : JStr) (context : Option JStr) :
    HandlerState × List LogLine × Option NativeErr :=
  if shouldSkipErrorLogging rc e context then
    (st,
     (match e with
      | .axiosVal a =>
        match a.response.bind (·.status) with
        | some s => if s ≠ 0 then [expectedInfoLine (context.getD []) s] else []
        | none => []
      | _ => []),
     none)
  else
    match createErrorDetails e source context with
    | .error t => (st, [], some t)
    | .ok details =>
      let cacheKey := createCacheKey details
      if st.loggedErrors.contains cacheKey then (st, [], none)
      else
        let st' := manageCacheSize st cacheKey
        match extractExtraDetails e with
        | .error t => (st', [.json .errorSev (sanitizeObject (detailsToValue details))], some t)
        | .ok extra => (st', emittedLogs source details extra, none)

/-- The fallback record logged by the `catch` block of `captureError`. -/
def fallbackValue (source : JStr) (msg : JStr) : Value :=
  .vObj (.cons (js "source") (.vStr source)
    (.cons (js "context") (.vStr (js "Error Handler Failure"))
      (.cons (js "message") (.vStr msg)
        (.cons (js "category") (.vStr (catStr .UNKNOWN)) .nil))))

/-- Model of `ErrorHandler.captureError`: run the body; on a thrown value log
the fallback record built with `getErrorMessage` (were that call itself to
throw inside the `catch`, the exception would propagate — the `Except`
result records that possibility). -/
def captureError (rc : RequestContextModel) (st : HandlerState) (e : JsError)
    (source : JStr) (context : Option JStr) :
    Except NativeErr (HandlerState × List LogLine) :=
  match captureErrorBody rc st e source context with
  | (st1, logs, none) => .ok (st1, logs)
  | (st1, logs, some t) =>
    match getErrorMessage (.errVal t) with
    | .ok m => .ok (st1, logs ++ [.json .errorSev (fallbackValue source m)])
    | .error t2 => .error t2

theorem shouldSkip_none (rc : RequestContextModel) (e : JsError) :
    shouldSkipErrorLogging rc e none = false := rfl

theorem captureError_hit (rc : RequestContextModel) (st : HandlerState) (e : JsError)
    (src : JStr) (d : ErrorDetails)
    (hd : createErrorDetails e src none = Except.ok d)
    (hmem : st.loggedErrors.contains (createCacheKey d) = true) :
    captureError rc st e src none = .ok (st, []) := by
  simp only [captureError, captureErrorBody, shouldSkip_none, Bool.false_eq_true, if_false,
    hd, hmem, if_true]

theorem captureError_fresh (rc : RequestContextModel) (st : HandlerState) (e : JsError)
    (src : JStr) (d : ErrorDetails) (extra : List (JStr × JField))
    (hd : createErrorDetails e src none = Except.ok d)
    (hex : extractExtraDetails e = Except.ok extra)
    (hmem : st.loggedErrors.contains (createCacheKey d) = false) :
    captureError rc st e src none =
      .ok (manageCacheSize st (createCacheKey d), emittedLogs src d extra) := by
  simp only [captureError, captureErrorBody, shouldSkip_none, Bool.false_eq_true, if_false,
    hd, hmem, hex]

theorem manageCacheSize_evict (h0 : JStr) (tl : List JStr) (key : JStr)
    (hlen : (h0 :: tl).length = 1000)
    (hmem : (h0 :: tl).contains key = false) :
    manageCacheSize ⟨h0 :: tl⟩ key = ⟨tl ++ [key]⟩ := by
  unfold manageCacheSize setAdd
  simp only [hmem, Bool.false_eq_true, if_false]
  have hlen2 : ((h0 :: tl) ++ [key]).length > MAX_CACHE_SIZE := by
    simp only [List.length_append, hlen, List.length_singleton, MAX_CACHE_SIZE]
    omega
  rw [if_pos hlen2]
  show HandlerState.mk ((h0 :: (tl ++ [key])).erase h0) = HandlerState.mk (tl ++ [key])
  rw [List.erase_cons_head]

theorem jsTrim_subset (s : JStr) : jsTrim s ⊆ s := by
  intro x hx
  unfold jsTrim at hx
  rw [List.mem_reverse] at hx
  have h1 := List.dropWhile_subset (l := (s.dropWhile isJsWs).reverse) isJsWs hx
  rw [List.mem_reverse] at h1
  exact List.dropWhile_subset isJsWs h1

theorem stripAnsiGo_subset (s : JStr) : ∀ (k : Nat), stripAnsiGo k s ⊆ s := by
  induction s with
  | nil => intro k; simp [stripAnsiGo]
  | cons c rest ih =>
    intro k
    match k with
    | k' + 1 =>
      show stripAnsiGo k' rest ⊆ c :: rest
      exact (ih k').trans (List.subset_cons_self c rest)
    | 0 =>
      show (if c = escChar then
          match ansiMatch rest with
          | some n => stripAnsiGo n rest
          | none => c :: stripAnsiGo 0 rest
        else c :: stripAnsiGo 0 rest) ⊆ c :: rest
      by_cases hc : c = escChar
      · rw [if_pos hc]
        cases hm : ansiMatch rest with
        | some n => exact (ih n).trans (List.subset_cons_self c rest)
        | none =>
          intro x hx
          rcases List.mem_cons.mp hx with h | h
          · exact h ▸ List.mem_cons_self c rest
          · exact List.mem_cons_of_mem c (ih 0 h)
      · rw [if_neg hc]
        intro x hx
        rcases List.mem_cons.mp hx with h | h
        · exact h ▸ List.mem_cons_self c rest
        · exact List.mem_cons_of_mem c (ih 0 h)

theorem stripQuoteErrorPrefix_subset (s : JStr) : stripQuoteErrorPrefix s ⊆ s := by
  unfold stripQuoteErrorPrefix
  have hbase : (if (sq :: js "Error: ").isPrefixOf s then s.drop 8
      else if [sq].isPrefixOf s then s.drop 1 else s) ⊆ s := by
    by_cases h1 : (sq :: js "Error: ").isPrefixOf s
    · rw [if_pos h1]; exact List.drop_subset 8 s
    · rw [if_neg h1]
      by_cases h2 : [sq].isPrefixOf s
      · rw [if_pos h2]; exact List.drop_subset 1 s
      · rw [if_neg h2]; exact fun x hx => hx
  by_cases hq : (if (sq :: js "Error: ").isPrefixOf s then s.drop 8
      else if [sq].isPrefixOf s then s.drop 1 else s).getLast? = some sq
  · rw [if_pos hq]
    exact (List.dropLast_subset _).trans hbase
  · rw [if_neg hq]
    exact hbase

theorem cleanMessage_no_newline (m : JStr) : Char.ofNat 10 ∉ cleanMessage m := by
  unfold cleanMessage
  by_cases hm : m = []
  · rw [if_pos hm]
    simp
  · rw [if_neg hm]
    intro hmem
    have := List.mem_takeWhile_imp hmem
    simp at this

theorem cleanMessage_no_quote (m : JStr) : sq ∉ cleanMessage m := by
  unfold cleanMessage
  by_cases hm : m = []
  · rw [if_pos hm]
    simp
  · rw [if_neg hm]
    intro hmem
    have h1 := List.takeWhile_subset (l := stripQuoteErrorPrefix (stripAnsi (sanitizeString m)))
      (fun c => c ≠ Char.ofNat 10) hmem
    have h2 := stripQuoteErrorPrefix_subset _ h1
    have h3 : sq ∈ stripAnsiGo 0 (sanitizeString m) := h2
    have h4 := stripAnsiGo_subset (sanitizeString m) 0 h3
    unfold sanitizeString at h4
    rw [if_neg hm] at h4
    have h5 := jsTrim_subset _ h4
    rw [List.mem_filter] at h5
    simp at h5

/-- C1: for every input value and sanitization policy, every field of the
output of `sanitizeData` whose key matches a configured sensitive key
(case-insensitively, by equality or substring) carries the policy's mask
value, at every nesting level including objects inside arrays; and the
scenario-C instance: sanitizing the object with `token = "abc123"` and
`nested.password = "xyz"` under the default policy masks both fields with
`"********"`. -/
theorem claim_C1_sanitize_masks_sensitive :
    (∀ (cfg : SanitizationParams) (v : Value), MaskedOkV cfg (sanitizeData cfg v)) ∧
    sanitizeData defaultSanitizationParams
      (.vObj (.cons (js "token") (.vStr (js "abc123"))
        (.cons (js "nested") (.vObj (.cons (js "password") (.vStr (js "xyz")) .nil)) .nil))) =
    .vObj (.cons (js "token") (.vStr (js "********"))
      (.cons (js "nested") (.vObj (.cons (js "password") (.vStr (js "********")) .nil)) .nil)) :=
  ⟨fun cfg v => sanitizeData_maskedOk cfg v, by decide⟩

/-- C5: `sanitizeData` is idempotent for every value and every policy,
including policies that set `maxStringLength` or `truncateUrls`. -/
theorem claim_C5_sanitize_idempotent :
    ∀ (cfg : SanitizationParams) (v : Value),
      sanitizeData cfg (sanitizeData cfg v) = sanitizeData cfg v :=
  fun cfg v => sanitizeData_idem cfg v

/-- C2 counterexample: on the scenario-B axios error, the `url` field of the
record built by `createErrorDetails` is not the path component
`"/users/42"` (the code copies the full `config.url`). -/
theorem claim_C2_counterexample :
    (match createErrorDetails scenarioBError (js "s") none with
     | .ok d => d.url
     | .error _ => none) ≠ some (js "/users/42") := by
  decide

/-- C2 amended: the scenario-B record has the claimed message, category and
status code, but its `url` field holds the full `config.url`
(`"https://api.example.com/users/42"`), not the stripped path (only the
formatted message contains the path-only form). -/
theorem claim_C2_amended :
    createErrorDetails scenarioBError (js "s") none =
      Except.ok
        { source := js "s",
          context := js "API Request Error",
          message := js "HTTP 404: Not Found (GET /users/42)",
          category := .NOT_FOUND,
          statusCode := some 404,
          url := some (js "https://api.example.com/users/42") } := by
  decide

/-- C6 counterexample: a bare ESC byte is not removed by `cleanMessage`
(the regex demands a bracketed color code or a trailing letter), so the
output can contain the ANSI escape byte 27. -/
theorem claim_C6_counterexample : escChar ∈ cleanMessage [escChar] := by decide

/-- C6 amended: for every input the output of `cleanMessage` contains no
newline; ANSI sequences matching the two removed patterns are stripped (a
CSI color code, and a bracket-less ESC control sequence with optional `?`,
digits or semicolons and a final letter), but an ESC byte that does not
begin such a matched pattern (for instance a string-final bare ESC) can
survive. -/
theorem claim_C6_amended :
    (∀ m : JStr, Char.ofNat 10 ∉ cleanMessage m) ∧
    cleanMessage (escChar :: js "[31m" ++ js "red" ++ escChar :: js "[0m") = js "red" ∧
    cleanMessage ([escChar] ++ js "?25h") = [] :=
  ⟨fun m => cleanMessage_no_newline m, by decide, by decide⟩

/-- C7 counterexample: `cleanMessage "'Error: boom'"` is not `"boom"` — the
initial `sanitizeString` pass deletes every quote, so the later
`/^'Error: /` pattern (which requires a leading quote) never matches and the
`Error: ` prefix survives. -/
theorem claim_C7_counterexample :
    cleanMessage (sq :: js "Error: boom" ++ [sq]) ≠ js "boom" := by decide

/-- C7 amended: `cleanMessage` removes every single-quote character (not just
leading and trailing ones), but does not strip the `Error: ` prefix: on
`"'Error: boom'"` it yields `"Error: boom"`. -/
theorem claim_C7_amended :
    (∀ m : JStr, sq ∉ cleanMessage m) ∧
    cleanMessage (sq :: js "Error: boom" ++ [sq]) = js "Error: boom" :=
  ⟨fun m => cleanMessage_no_quote m, by decide⟩

/-- C8: the OS error-code tier outranks the keyword tier — every `Error`
carrying `code = "ENOENT"` is categorized `FILE_NOT_FOUND` by
`categorizeErrorByMessage`, whatever its message says. -/
theorem claim_C8_code_tier_precedence (e : NativeErr)
    (h : e.code = some (js "ENOENT")) :
    categorizeErrorByMessage e = .FILE_NOT_FOUND := by
  unfold categorizeErrorByMessage
  rw [h]
  have hfs : fsCodeCategory (js "ENOENT") = some ErrorCategory.FILE_NOT_FOUND := by decide
  show (match fsCodeCategory (js "ENOENT") with
    | some cat => cat
    | none => keywordScan (jsToLower e.message) e) = ErrorCategory.FILE_NOT_FOUND
  rw [hfs]

/-- C8 witness: an ENOENT error whose message contains `"permission"` is
still `FILE_NOT_FOUND`, not `PERMISSION`. -/
theorem claim_C8_witness :
    categorizeErrorByMessage { message := js "permission denied", code := some (js "ENOENT") } =
      ErrorCategory.FILE_NOT_FOUND :=
  claim_C8_code_tier_precedence { message := js "permission denied", code := some (js "ENOENT") }
    rfl

/-- C9: for an axios-shaped error with a (truthy) response status, in a
context marking that status as an expected negative-test outcome,
`captureError` emits exactly one informational line carrying the status and
the context and leaves the dedup cache untouched: no record is built, no
fingerprint inserted or evicted. -/
theorem claim_C9_expected_error_skip (rc : RequestContextModel) (st : HandlerState)
    (a : AxiosShape) (src ctx : JStr) (s : Nat)
    (hs : a.response.bind (·.status) = some s) (hs0 : s ≠ 0) (hctx : ctx ≠ [])
    (hexp : rc.isExpectedStatus ctx s = true) (hneg : rc.isNegativeTest ctx = true) :
    captureError rc st (.axiosVal a) src (some ctx) = .ok (st, [expectedInfoLine ctx s]) := by
  have hskip : shouldSkipErrorLogging rc (.axiosVal a) (some ctx) = true := by
    simp only [shouldSkipErrorLogging, hs, if_neg hctx, if_pos hs0, hexp, hneg, Bool.and_self]
  simp only [captureError, captureErrorBody, hskip, if_true, hs, if_pos hs0, Option.getD_some]

/-- Request-context stub whose predicates are always false. -/
def rcFalse : RequestContextModel := ⟨fun _ _ => false, fun _ => false⟩

/-- Request-context stub for claim C9's witness: status 404 is expected in
context `neg404`, which is a negative test. -/
def rcNeg404 : RequestContextModel :=
  ⟨fun c n => decide (c = js "neg404") && decide (n = 404), fun c => decide (c = js "neg404")⟩

/-- C9 witness: a concrete expected 404 in a negative-test context yields the
single informational line and an unchanged empty cache. -/
theorem claim_C9_witness :
    captureError rcNeg404 ⟨[]⟩ (.axiosVal { response := some { status := some 404 } })
      (js "apiClient") (some (js "neg404")) =
    .ok (⟨[]⟩, [expectedInfoLine (js "neg404") 404]) :=
  claim_C9_expected_error_skip rcNeg404 ⟨[]⟩ { response := some { status := some 404 } }
    (js "apiClient") (js "neg404") 404 rfl (by decide) (by decide) (by decide) (by decide)

/-- C3: `captureError` never raises — for every error, source and context its
result is a normal return; and whenever the body throws at some point, the
emitted logs are the partial logs followed by exactly the fallback record
(the given source, context `"Error Handler Failure"`, the failure's own
cleaned message, category `UNKNOWN`). -/
theorem claim_C3_captureError_never_raises (rc : RequestContextModel) (st : HandlerState)
    (e : JsError) (src : JStr) (context : Option JStr) :
    (captureError rc st e src context).isOk = true ∧
    (∀ st1 logs t, captureErrorBody rc st e src context = (st1, logs, some t) →
      captureError rc st e src context =
        .ok (st1, logs ++ [.json .errorSev (fallbackValue src (cleanMessage t.message))])) := by
  rcases hbody : captureErrorBody rc st e src context with ⟨st1, logs, topt⟩
  cases topt with
  | none =>
    refine ⟨?_, ?_⟩
    · unfold captureError
      rw [hbody]
      rfl
    · intro st2 logs2 t h2
      simp at h2
  | some t0 =>
    refine ⟨?_, ?_⟩
    · unfold captureError
      rw [hbody]
      rfl
    · intro st2 logs2 t h2
      obtain ⟨h21, h22, h23⟩ : st1 = st2 ∧ logs = logs2 ∧ t0 = t := by
        simpa [Prod.ext_iff] using h2
      subst h21
      subst h22
      subst h23
      unfold captureError
      rw [hbody]
      rfl

/-- The axios-shaped error whose invalid `config.url` (`"https://"`, empty
host) makes the `new URL` call inside message formatting throw. -/
def invalidUrlError : JsError :=
  .axiosVal { response := some { status := some 404 }, config := some { url := some (js "https://") } }

/-- C3 witness: on a concrete error whose URL parsing throws, `captureError`
returns normally and logs exactly the fallback record with the thrown
`Invalid URL` message. -/
theorem claim_C3_witness :
    captureError rcFalse ⟨[]⟩ invalidUrlError (js "src") none =
      .ok (⟨[]⟩, [] ++ [.json .errorSev
        (fallbackValue (js "src") (cleanMessage (js "Invalid URL")))]) :=
  (claim_C3_captureError_never_raises rcFalse ⟨[]⟩ invalidUrlError (js "src") none).2
    ⟨[]⟩ [] { message := js "Invalid URL" } (by decide)

/-- C4: dedup and FIFO eviction of the `loggedErrors` cache. With a full
cache of 1000 fingerprints `h0 :: tl` and a fresh error `e1` whose
fingerprint is new: (1) the first `captureError` emits the record and evicts
exactly the first-inserted fingerprint `h0`, leaving `tl ++ [fp1]`; (2) an
immediate second call with the same arguments is a no-op (no log, state
unchanged); (3) resubmitting an error carrying the evicted fingerprint `h0`
is logged again; (4) every error whose fingerprint is among the remaining
`tl` (the 2nd through 1000th entries) is still suppressed. -/
theorem claim_C4_dedup_and_fifo_eviction
    (rc : RequestContextModel) (h0 : JStr) (tl : List JStr)
    (e1 : JsError) (src1 : JStr) (d1 : ErrorDetails) (ex1 : List (JStr × JField))
    (e0 : JsError) (src0 : JStr) (d0 : ErrorDetails) (ex0 : List (JStr × JField))
    (hlen : (h0 :: tl).length = 1000)
    (hd1 : createErrorDetails e1 src1 none = Except.ok d1)
    (hex1 : extractExtraDetails e1 = Except.ok ex1)
    (hfp : createCacheKey d1 ∉ h0 :: tl)
    (hd0 : createErrorDetails e0 src0 none = Except.ok d0)
    (hex0 : extractExtraDetails e0 = Except.ok ex0)
    (hk0 : createCacheKey d0 = h0)
    (hh1 : h0 ∉ tl)
    (hh2 : h0 ≠ createCacheKey d1) :
    (captureError rc ⟨h0 :: tl⟩ e1 src1 none =
      .ok (⟨tl ++ [createCacheKey d1]⟩, emittedLogs src1 d1 ex1)) ∧
    (captureError rc ⟨tl ++ [createCacheKey d1]⟩ e1 src1 none =
      .ok (⟨tl ++ [createCacheKey d1]⟩, [])) ∧
    (∃ st2, captureError rc ⟨tl ++ [createCacheKey d1]⟩ e0 src0 none =
      .ok (st2, emittedLogs src0 d0 ex0)) ∧
    (∀ k ∈ tl, ∀ (e2 : JsError) (src2 : JStr) (d2 : ErrorDetails),
      createErrorDetails e2 src2 none = Except.ok d2 →
      createCacheKey d2 = k →
      captureError rc ⟨tl ++ [createCacheKey d1]⟩ e2 src2 none =
        .ok (⟨tl ++ [createCacheKey d1]⟩, [])) := by
  have hc1 : (h0 :: tl).contains (createCacheKey d1) = false := by simpa using hfp
  refine ⟨?_, ?_, ?_, ?_⟩
  · have hrun := captureError_fresh rc ⟨h0 :: tl⟩ e1 src1 d1 ex1 hd1 hex1 hc1
    rwa [manageCacheSize_evict h0 tl (createCacheKey d1) hlen hc1] at hrun
  · have hmem2 : (tl ++ [createCacheKey d1]).contains (createCacheKey d1) = true := by
      simp
    exact captureError_hit rc ⟨tl ++ [createCacheKey d1]⟩ e1 src1 d1 hd1 hmem2
  · have hnot : (tl ++ [createCacheKey d1]).contains (createCacheKey d0) = false := by
      have : createCacheKey d0 ∉ tl ++ [createCacheKey d1] := by
        rw [hk0]
        intro hmem
        rcases List.mem_append.mp hmem with hm | hm
        · exact hh1 hm
        · exact hh2 (List.mem_singleton.mp hm)
      simpa using this
    exact ⟨manageCacheSize ⟨tl ++ [createCacheKey d1]⟩ (createCacheKey d0),
      captureError_fresh rc ⟨tl ++ [createCacheKey d1]⟩ e0 src0 d0 ex0 hd0 hex0 hnot⟩
  · intro k hk e2 src2 d2 hd2 hk2
    have hmem4 : (tl ++ [createCacheKey d1]).contains (createCacheKey d2) = true := by
      have : createCacheKey d2 ∈ tl ++ [createCacheKey d1] := by
        rw [hk2]
        exact List.mem_append_left _ hk
      simpa using this
    exact captureError_hit rc ⟨tl ++ [createCacheKey d1]⟩ e2 src2 d2 hd2 hmem4

/-- The 2nd through 1000th fingerprints of claim C4's witness cache. -/
def c4CacheTail : List JStr :=
  (List.range 999).map (fun i => js "src_UNKNOWN_zz" ++ natToChars (i + 1))

/-- The first-inserted fingerprint of claim C4's witness cache. -/
def c4Head : JStr := js "src_UNKNOWN_zz0"

/-- The fresh error of claim C4's witness (fingerprint `src_UNKNOWN_fresh`). -/
def c4Fresh : JsError := .errVal { message := js "fresh" }

/-- The error of claim C4's witness whose fingerprint is the evicted head. -/
def c4Evicted : JsError := .errVal { message := js "zz0" }

/-- The record built for `c4Fresh`. -/
def c4d1 : ErrorDetails :=
  { source := js "src", context := js "General Error", message := js "fresh",
    category := .UNKNOWN }

/-- The record built for `c4Evicted`. -/
def c4d0 : ErrorDetails :=
  { source := js "src", context := js "General Error", message := js "zz0",
    category := .UNKNOWN }

/-- C4 witness: on a concrete full cache of 1000 fingerprints, submitting a
fresh error emits its record and leaves the cache as the old tail plus the
new fingerprint — the first-inserted entry is the one evicted. -/
theorem claim_C4_witness :
    captureError rcFalse ⟨c4Head :: c4CacheTail⟩ c4Fresh (js "src") none =
      .ok (⟨c4CacheTail ++ [createCacheKey c4d1]⟩, emittedLogs (js "src") c4d1 []) :=
  (claim_C4_dedup_and_fifo_eviction rcFalse c4Head c4CacheTail c4Fresh (js "src") c4d1 []
    c4Evicted (js "src") c4d0 []
    (by decide) (by decide) (by decide) (by decide) (by decide) (by decide) (by decide)
    (by decide) (by decide)).1

/-- Primitive JavaScript values of the heap model (stored inline). -/
inductive HPrim where
  | hNull
  | hBool (b : Bool)
  | hNum (n : Int)
  | hStr (s : JStr)
  deriving DecidableEq

/-- A JavaScript value in the heap model: a primitive, or a reference to a
heap-allocated object or array. -/
inductive HVal where
  | prim (p : HPrim)
  | ref (a : Nat)
  deriving DecidableEq

/-- A heap node: an object (ordered fields) or an array. -/
inductive HNode where
  | obj (fields : List (JStr × HVal))
  | arr (items : List HVal)
  deriving DecidableEq

/-- The JavaScript heap: allocated nodes by address, plus the next fresh
address. Reads take the first binding (`List.lookup`). -/
structure Heap where
  nodes : List (Nat × HNode)
  next : Nat
  deriving DecidableEq

/-- Read a node. -/
def heapGet (σ : Heap) (a : Nat) : Option HNode := σ.nodes.lookup a

/-- Allocate a new node at a fresh address; existing bindings are untouched. -/
def heapAlloc (σ : Heap) (n : HNode) : Heap × Nat :=
  ({ nodes := σ.nodes ++ [(σ.next, n)], next := σ.next + 1 }, σ.next)

mutual
/-- Heap-level rendition of `SanitizationConfig.sanitizeData`, mirroring the
pure model but making allocation explicit: the object branch copies the node
(the `{...data}` spread), the array branch builds a new array (`data.map`),
and nested objects are recursed into, so only fresh nodes are ever written.
`fuel` bounds the recursion depth (the source recursion is bounded by the
depth of the input object graph; a cyclic graph would overflow the stack). -/
def sanitizeDataH : Nat → SanitizationParams → Heap → HVal → Heap × HVal
  | 0, _, σ, v => (σ, v)
  | fuel + 1, cfg, σ, v =>
    match v with
    | .prim .hNull => (σ, .prim .hNull)
    | .prim (.hBool b) => (σ, .prim (.hBool b))
    | .prim (.hNum n) => (σ, .prim (.hNum n))
    | .prim (.hStr s) => (σ, .prim (.hStr (lenStep cfg s)))
    | .ref a =>
      match heapGet σ a with
      | none => (σ, .ref a)
      | some (.arr items) =>
        let r1 := sanitizeItemsH fuel cfg σ items
        let r2 := heapAlloc r1.1 (.arr r1.2)
        (r2.1, .ref r2.2)
      | some (.obj fields) =>
        let kept := fields.filter (fun kv => ¬ (skipActive cfg ∧ isSkippedKey cfg kv.1))
        let r1 := sanitizeFieldsH fuel cfg σ kept
        let r2 := heapAlloc r1.1 (.obj r1.2)
        (r2.1, .ref r2.2)
termination_by fuel _ _ _ => (fuel, 0)

/-- Array elements, left to right: references (objects and arrays) are
recursed into, primitives pass through. -/
def sanitizeItemsH : Nat → SanitizationParams → Heap → List HVal → Heap × List HVal
  | _, _, σ, [] => (σ, [])
  | fuel, cfg, σ, x :: tl =>
    let r1 := match x with
      | .ref a => sanitizeDataH fuel cfg σ (.ref a)
      | .prim p => (σ, HVal.prim p)
    let r2 := sanitizeItemsH fuel cfg r1.1 tl
    (r2.1, r1.2 :: r2.2)
termination_by fuel _ _ l => (fuel, l.length + 1)

/-- Remaining object fields, in order: sensitive keys get the mask, string
values are processed, references are recursed into. -/
def sanitizeFieldsH : Nat → SanitizationParams → Heap → List (JStr × HVal) →
    Heap × List (JStr × HVal)
  | _, _, σ, [] => (σ, [])
  | fuel, cfg, σ, (k, v) :: tl =>
    let r1 :=
      if isSensitiveKey cfg k then (σ, HVal.prim (.hStr cfg.maskValue))
      else
        match v with
        | .prim .hNull => (σ, HVal.prim .hNull)
        | .prim (.hBool b) => (σ, HVal.prim (.hBool b))
        | .prim (.hNum n) => (σ, HVal.prim (.hNum n))
        | .prim (.hStr s) => (σ, HVal.prim (.hStr (processStringValue cfg s)))
        | .ref a => sanitizeDataH fuel cfg σ (.ref a)
    let r2 := sanitizeFieldsH fuel cfg r1.1 tl
    (r2.1, (k, r1.2) :: r2.2)
termination_by fuel _ _ l => (fuel, l.length + 1)
end

theorem lookup_append_some {l ext : List (Nat × HNode)} {a : Nat} {n : HNode}
    (h : l.lookup a = some n) : (l ++ ext).lookup a = some n := by
  induction l with
  | nil => simp [List.lookup] at h
  | cons kv tl ih =>
    rcases kv with ⟨k, v⟩
    cases hk : a == k
    · simp only [List.cons_append, List.lookup, hk] at h ⊢
      exact ih h
    · simp only [List.cons_append, List.lookup, hk] at h ⊢
      exact h

mutual
theorem sanitizeDataH_extends (fuel : Nat) (cfg : SanitizationParams) (σ : Heap) (v : HVal) :
    ∃ ext, (sanitizeDataH fuel cfg σ v).1.nodes = σ.nodes ++ ext := by
  cases fuel with
  | zero => exact ⟨[], by simp [sanitizeDataH]⟩
  | succ fuel =>
    cases v with
    | prim p =>
      cases p with
      | hNull => exact ⟨[], by simp [sanitizeDataH]⟩
      | hBool b => exact ⟨[], by simp [sanitizeDataH]⟩
      | hNum n => exact ⟨[], by simp [sanitizeDataH]⟩
      | hStr s => exact ⟨[], by simp [sanitizeDataH]⟩
    | ref a =>
      cases hget : heapGet σ a with
      | none => exact ⟨[], by simp [sanitizeDataH, hget]⟩
      | some node =>
        cases node with
        | arr items =>
          obtain ⟨ext1, h1⟩ := sanitizeItemsH_extends fuel cfg σ items
          refine ⟨ext1 ++ [((sanitizeItemsH fuel cfg σ items).1.next,
            .arr (sanitizeItemsH fuel cfg σ items).2)], ?_⟩
          simp only [sanitizeDataH, hget, heapAlloc]
          rw [h1, List.append_assoc]
        | obj fields =>
          obtain ⟨ext1, h1⟩ := sanitizeFieldsH_extends fuel cfg σ
            (fields.filter (fun kv => ¬ (skipActive cfg ∧ isSkippedKey cfg kv.1)))
          refine ⟨ext1 ++
            [((sanitizeFieldsH fuel cfg σ
                (fields.filter (fun kv => ¬ (skipActive cfg ∧ isSkippedKey cfg kv.1)))).1.next,
              .obj (sanitizeFieldsH fuel cfg σ
                (fields.filter (fun kv => ¬ (skipActive cfg ∧ isSkippedKey cfg kv.1)))).2)], ?_⟩
          simp only [sanitizeDataH, hget, heapAlloc]
          rw [h1, List.append_assoc]
termination_by (fuel, 0)

theorem sanitizeItemsH_extends (fuel : Nat) (cfg : SanitizationParams) (σ : Heap)
    (l : List HVal) :
    ∃ ext, (sanitizeItemsH fuel cfg σ l).1.nodes = σ.nodes ++ ext := by
  cases l with
  | nil => exact ⟨[], by simp [sanitizeItemsH]⟩
  | cons x tl =>
    cases x with
    | ref a =>
      obtain ⟨ext1, h1⟩ := sanitizeDataH_extends fuel cfg σ (.ref a)
      obtain ⟨ext2, h2⟩ :=
        sanitizeItemsH_extends fuel cfg (sanitizeDataH fuel cfg σ (.ref a)).1 tl
      refine ⟨ext1 ++ ext2, ?_⟩
      simp only [sanitizeItemsH]
      rw [h2, h1, List.append_assoc]
    | prim p =>
      obtain ⟨ext2, h2⟩ := sanitizeItemsH_extends fuel cfg σ tl
      refine ⟨ext2, ?_⟩
      simp only [sanitizeItemsH]
      exact h2
termination_by (fuel, l.length + 1)

theorem sanitizeFieldsH_extends (fuel : Nat) (cfg : SanitizationParams) (σ : Heap)
    (l : List (JStr × HVal)) :
    ∃ ext, (sanitizeFieldsH fuel cfg σ l).1.nodes = σ.nodes ++ ext := by
  cases l with
  | nil => exact ⟨[], by simp [sanitizeFieldsH]⟩
  | cons kv tl =>
    rcases kv with ⟨k, v⟩
    by_cases hsens : isSensitiveKey cfg k = true
    · obtain ⟨ext2, h2⟩ := sanitizeFieldsH_extends fuel cfg σ tl
      refine ⟨ext2, ?_⟩
      cases v with
      | ref a => simp [sanitizeFieldsH, hsens]; exact h2
      | prim p =>
        cases p with
        | hNull => simp [sanitizeFieldsH, hsens]; exact h2
        | hBool b => simp [sanitizeFieldsH, hsens]; exact h2
        | hNum n => simp [sanitizeFieldsH, hsens]; exact h2
        | hStr s => simp [sanitizeFieldsH, hsens]; exact h2
    · cases v with
      | ref a =>
        obtain ⟨ext1, h1⟩ := sanitizeDataH_extends fuel cfg σ (.ref a)
        obtain ⟨ext2, h2⟩ :=
          sanitizeFieldsH_extends fuel cfg (sanitizeDataH fuel cfg σ (.ref a)).1 tl
        refine ⟨ext1 ++ ext2, ?_⟩
        simp [sanitizeFieldsH, hsens]
        rw [h2, h1, List.append_assoc]
      | prim p =>
        obtain ⟨ext2, h2⟩ := sanitizeFieldsH_extends fuel cfg σ tl
        refine ⟨ext2, ?_⟩
        cases p with
        | hNull => simp [sanitizeFieldsH, hsens]; exact h2
        | hBool b => simp [sanitizeFieldsH, hsens]; exact h2
        | hNum n => simp [sanitizeFieldsH, hsens]; exact h2
        | hStr s => simp [sanitizeFieldsH, hsens]; exact h2
termination_by (fuel, l.length + 1)
end

/-- C10: `sanitizeData` never mutates its argument. In the heap embedding
`sanitizeDataH` (which makes the source's `{...data}` copies and `data.map`
allocations explicit), the resulting heap only extends the initial one with
fresh nodes, so every pre-existing object and array — the input and all of
its nested structures — still holds exactly its old content after the call,
at any recursion depth `fuel` and for every policy. -/
theorem claim_C10_sanitize_no_mutation (fuel : Nat) (cfg : SanitizationParams)
    (σ : Heap) (v : HVal) :
    (∃ ext, (sanitizeDataH fuel cfg σ v).1.nodes = σ.nodes ++ ext) ∧
    (∀ (a : Nat) (n : HNode), heapGet σ a = some n →
      heapGet (sanitizeDataH fuel cfg σ v).1 a = some n) := by
  obtain ⟨ext, hext⟩ := sanitizeDataH_extends fuel cfg σ v
  refine ⟨⟨ext, hext⟩, ?_⟩
  intro a n h
  unfold heapGet at h ⊢
  rw [hext]
  exact lookup_append_some h

/-- A one-object heap holding a secret, for claim C10's witness. -/
def c10Heap : Heap := ⟨[(0, .obj [(js "password", .prim (.hStr (js "p")))])], 1⟩

/-- C10 witness: sanitizing the object at address 0 leaves the node at
address 0 — the caller's unredacted original — unchanged in the heap. -/
theorem claim_C10_witness :
    heapGet c10Heap 0 = some (.obj [(js "password", .prim (.hStr (js "p")))]) ∧
    heapGet (sanitizeDataH 3 defaultSanitizationParams c10Heap (.ref 0)).1 0 =
      some (.obj [(js "password", .prim (.hStr (js "p")))]) :=
  ⟨by decide,
   (claim_C10_sanitize_no_mutation 3 defaultSanitizationParams c10Heap (.ref 0)).2 0
     (.obj [(js "password", .prim (.hStr (js "p")))]) (by decide)⟩

end ErrCore
